import Mathlib

/-!
Verification of the Computer Adaptive Testing (CAT) engine of this
repository.  The definitions below are a shallow embedding of the
plpgsql functions of `supabase/migrations/20250306000004_phase4_cat_implementation.sql`
(IRT math, MLE ability estimation, question selection, answer
submission, session creation) and of the scoring part of
`submit_test_answer` from the Phase-2 migration.

Modelling conventions:
* Postgres `NUMERIC` values are modelled as real numbers (`ℝ`) where the
  code applies `exp`, and as rationals (`ℚ`) in the purely arithmetic
  scoring engine.  The 2-decimal rounding of `NUMERIC(5,2)` columns is
  not modelled.
* Nullable columns (`was_correct`, `ability_estimate_after`,
  `is_correct`) are `Option` values; plpgsql `IF b THEN` with a NULL
  boolean takes the ELSE branch, which is mirrored by comparing with
  `some true`.
* `ORDER BY RANDOM()` result orders are oracle inputs: the candidate
  list handed to `get_next_cat_question` stands for the randomized
  unanswered-pool rows of its query (the code then applies `LIMIT 50`),
  and `fallback_pick` stands for the row returned by the second,
  re-randomized fallback query.
* The `auth.uid()` authorization checks are outside the model (the
  caller is assumed authorized), and a raised exception / violated
  unique constraint aborts the enclosing transaction, so a failing call
  is modelled as `Except.error` carrying no successor state.
-/

namespace CatEngine

/-- Clamping of the logit argument in `calculate_probability`
(`IF logit > 35.0 ... ELSIF logit < -35.0 ...`). -/
noncomputable def clamp_logit (logit : ℝ) : ℝ :=
  if logit > 35 then 35 else if logit < -35 then -35 else logit

/-- `calculate_probability(ability, discrimination, difficulty, guessing)`:
3PL model `P(θ) = c + (1-c) / (1 + e^(-a(θ-b)))` with the logit argument
clamped to `[-35, 35]`. -/
noncomputable def calculate_probability (ability discrimination difficulty guessing : ℝ) : ℝ :=
  guessing + (1 - guessing) / (1 + Real.exp (-(clamp_logit (discrimination * (ability - difficulty)))))

/-- `calculate_information(ability, a, b, c)`: 3PL item information
`a² (p-c)² / ((1-c)² p (1-p))` when `0 < c < 1` and `c < p < 1`,
otherwise the fallback `a² p (1-p)`. -/
noncomputable def calculate_information (ability discrimination difficulty guessing : ℝ) : ℝ :=
  let probability := calculate_probability ability discrimination difficulty guessing
  if guessing > 0 ∧ guessing < 1 ∧ probability > guessing ∧ probability < 1 then
    (discrimination * discrimination * (probability - guessing) * (probability - guessing)) /
      ((1 - guessing) * (1 - guessing) * probability * (1 - probability))
  else
    discrimination * discrimination * probability * (1 - probability)

/-- One answered item as seen by `estimate_ability_mle`: the row of the
join of `cat_question_selections` with `question_difficulty_parameters`.
`was_correct` is the plpgsql truth of the stored nullable boolean
(`NULL` behaves as false in `IF v_correct THEN`). -/
structure AnsweredItem where
  discrimination : ℝ
  difficulty : ℝ
  guessing : ℝ
  was_correct : Bool

/-- Probability clamping inside the MLE loop
(`IF v_probability < 0.001 ... IF v_probability > 0.999 ...`). -/
noncomputable def clamp_mle_probability (p : ℝ) : ℝ :=
  if p < 0.001 then 0.001 else if p > 0.999 then 0.999 else p

/-- The inner `FOR v_selection IN ... LOOP` of `estimate_ability_mle`:
accumulates the first and second derivative of the log-likelihood over
all answered items at the current ability. -/
noncomputable def likelihood_derivatives (items : List AnsweredItem) (ability : ℝ) : ℝ × ℝ :=
  items.foldl
    (fun acc it =>
      let p := clamp_mle_probability
        (calculate_probability ability it.discrimination it.difficulty it.guessing)
      (if it.was_correct then acc.1 + it.discrimination * (1 - p) / p
       else acc.1 - it.discrimination * p / (1 - p),
       acc.2 - it.discrimination * it.discrimination * p * (1 - p)))
    (0, 0)

/-- Ability clamping after every Newton-Raphson update
(`IF v_ability < -4.0 ... IF v_ability > 4.0 ...`). -/
noncomputable def clamp_ability (ability : ℝ) : ℝ :=
  if ability < -4 then -4 else if ability > 4 then 4 else ability

/-- One loop body of `estimate_ability_mle`: a Newton-Raphson step
(or the fixed 0.1 nudge in the sign of L′ when L″ = 0) followed by
the clamp to `[-4, 4]`. -/
noncomputable def mle_step (items : List AnsweredItem) (ability : ℝ) : ℝ :=
  let d := likelihood_derivatives items ability
  clamp_ability (if d.2 ≠ 0 then ability - d.1 / d.2 else ability + 0.1 * Real.sign d.1)

/-- The `WHILE ABS(v_ability - v_prev_ability) > 0.001 AND v_iter < v_max_iter`
loop of `estimate_ability_mle`; the remaining-fuel argument realizes the
`v_iter < 50` bound. -/
noncomputable def mle_iterate (items : List AnsweredItem) : ℕ → ℝ → ℝ → ℝ
  | 0, ability, _ => ability
  | fuel + 1, ability, prev =>
    if |ability - prev| > 0.001 then
      mle_iterate items fuel (mle_step items ability) ability
    else ability

/-- Number of loop iterations `estimate_ability_mle` executes
(the final value of `v_iter`). -/
noncomputable def mle_iteration_count (items : List AnsweredItem) : ℕ → ℝ → ℝ → ℕ
  | 0, _, _ => 0
  | fuel + 1, ability, prev =>
    if |ability - prev| > 0.001 then
      mle_iteration_count items fuel (mle_step items ability) ability + 1
    else 0

/-- `estimate_ability_mle`: Newton-Raphson MLE of the ability from the
session's answered items, started at the session's `current_ability`
(`v_prev_ability` is initialized to the sentinel `-999.0`, `v_max_iter = 50`). -/
noncomputable def estimate_ability_mle (items : List AnsweredItem) (current_ability : ℝ) : ℝ :=
  mle_iterate items 50 current_ability (-999)

/-- A row of the `answers` table (the per-question options read by
`submit_test_answer`). -/
structure AnswerRow where
  id : ℕ
  is_correct : Bool
  partial_credit : ℚ
  penalty_value : ℚ
  deriving DecidableEq

/-- A row of the `questions` table together with its options, as read
by `submit_test_answer`. -/
structure QuestionRow where
  id : ℕ
  question_format : String
  use_partial_scoring : Bool
  answers : List AnswerRow
  deriving DecidableEq

/-- The scoring outcome of `submit_test_answer`: the values of
`v_is_correct`, `v_score`, `v_max_score` after the format dispatch.
`is_correct` is `none` when the plpgsql variable stays NULL (a
`Multiple Choice` lookup that matches no `answers` row). -/
structure ScoreResult where
  is_correct : Option Bool
  score : ℚ
  max_score : ℚ
  deriving DecidableEq

/-- The CASE expression of the SATA-with-partial-scoring SUM of
`submit_test_answer`: `+partial_credit` if the option is correct and
selected, `-penalty_value` if incorrect and selected, `-partial_credit`
if correct and not selected, else 0. -/
def sata_option_contribution (user_response : List ℕ) (a : AnswerRow) : ℚ :=
  if a.id ∈ user_response ∧ a.is_correct then a.partial_credit
  else if a.id ∈ user_response ∧ ¬a.is_correct then -a.penalty_value
  else if a.id ∉ user_response ∧ a.is_correct then -a.partial_credit
  else 0

/-- The SATA-with-partial-scoring aggregate (`SELECT COALESCE(SUM(CASE
... END), 0)`) of `submit_test_answer`. -/
def sata_raw_score (answers : List AnswerRow) (user_response : List ℕ) : ℚ :=
  answers.foldl (fun s a => s + sata_option_contribution user_response a) 0

/-- SQL `GREATEST` on two numerics (used as `GREATEST(v_score, 0)`). -/
def greatest (x y : ℚ) : ℚ :=
  if x ≤ y then y else x

/-- The scoring part of `submit_test_answer` (Phase-2 migration):
dispatch on `question_format` / `use_partial_scoring`, producing
`(v_is_correct, v_score, v_max_score)`.  Response elements are the
selected option ids (`id::text = p_user_response[...]` comparisons). -/
def score_answer (q : QuestionRow) (user_response : List ℕ) : ScoreResult :=
  if q.question_format = "Multiple Choice" then
    -- SELECT is_correct FROM answers WHERE question_id = .. AND id::text = p_user_response[1]
    let found := user_response.head?.bind fun r => q.answers.find? fun a => a.id = r
    let correct := found.map fun a => a.is_correct
    { is_correct := correct,
      score := if correct = some true then 1 else 0,
      max_score := 1 }
  else if q.question_format = "Select All That Apply" ∧ q.use_partial_scoring then
    let raw := sata_raw_score q.answers user_response
    -- v_score := GREATEST(v_score, 0)
    let sc := greatest raw 0
    -- SELECT COUNT(*) ... WHERE is_correct
    let mx : ℚ := ((q.answers.filter fun a => a.is_correct).length : ℚ)
    { is_correct := some (decide (sc = mx)), score := sc, max_score := mx }
  else
    -- exact-set match: no correct answer unselected and no incorrect answer selected
    let missed := q.answers.any fun a => a.is_correct && decide (a.id ∉ user_response)
    let extra := q.answers.any fun a => !a.is_correct && decide (a.id ∈ user_response)
    if ¬missed ∧ ¬extra then { is_correct := some true, score := 1, max_score := 1 }
    else { is_correct := some false, score := 0, max_score := 1 }

/-- A row of `cat_question_selections` for one session.  `question_id`
is nullable because the INSERT in `get_next_cat_question` can insert a
NULL id when even the fallback query finds no question. -/
structure Selection where
  question_id : Option ℕ
  position : ℕ
  ability_estimate_before : ℝ
  ability_estimate_after : Option ℝ
  information_value : ℝ
  was_correct : Option Bool

/-- The mutable columns of a `cat_sessions` row used by the CAT
functions. -/
structure CatSessionRow where
  current_ability : ℝ
  passing_standard : ℝ
  min_questions : ℕ
  max_questions : ℕ
  questions_answered : ℕ
  status : String

/-- A row of `test_results` for the session's test (the table enforcing
`UNIQUE(test_id, question_id)`). -/
structure TestResultRow where
  question_id : ℕ
  user_response : List ℕ
  is_correct : Option Bool
  score : ℚ
  max_score : ℚ

/-- A row of `question_difficulty_parameters`. -/
structure QdpRow where
  question_id : ℕ
  discrimination : ℝ
  difficulty : ℝ
  guessing : ℝ

/-- The per-session database state touched by `get_next_cat_question`
and `submit_cat_answer`: the session row, its selection log, and the
`test_results` rows of its test. -/
structure SessionState where
  session : CatSessionRow
  selections : List Selection
  results : List TestResultRow

/-- A candidate row of the selection query of `get_next_cat_question`
(`questions` joined with `question_difficulty_parameters`, unanswered
pool members only). -/
structure CandidateRow where
  id : ℕ
  discrimination : ℝ
  difficulty : ℝ
  guessing : ℝ

/-- Result of `get_next_cat_question`: the JSON object it returns,
abstracted to its three shapes (already-terminated session, fresh
termination decision, or a served question). -/
inductive NextQuestionResult where
  | already_done (status : String) (ability : ℝ) (questions_answered : ℕ)
  | completed (decision : String) (ability : ℝ) (questions_answered : ℕ)
  | next_question (question_id : Option ℕ) (question_number : ℕ)

/-- The `v_info` computed for one candidate row inside the selection
loop of `get_next_cat_question`. -/
noncomputable def candidate_information (ability : ℝ) (cand : CandidateRow) : ℝ :=
  calculate_information ability cand.discrimination cand.difficulty cand.guessing

/-- The candidate loop of `get_next_cat_question` generalized over its
accumulator `(v_max_info, v_next_question_id)`. -/
noncomputable def max_info_scan (ability : ℝ) (acc : ℝ × Option ℕ)
    (shortlist : List CandidateRow) : ℝ × Option ℕ :=
  shortlist.foldl
    (fun acc cand =>
      if candidate_information ability cand > acc.1
      then (candidate_information ability cand, some cand.id)
      else acc)
    acc

/-- The maximum-information scan of `get_next_cat_question`
(`IF v_info > v_max_info THEN ...` over the shortlisted candidates,
starting from `v_max_info := 0`, `v_next_question_id` NULL). -/
noncomputable def select_max_info (ability : ℝ) (shortlist : List CandidateRow) : ℝ × Option ℕ :=
  max_info_scan ability (0, none) shortlist

/-- `get_next_cat_question`: stopping-rule evaluation and question
selection.  `candidates` is the randomized unanswered-pool row list of
the selection query (the code takes `LIMIT 50` of it), `fallback_pick`
the id produced by the re-randomized fallback query. -/
noncomputable def get_next_cat_question (st : SessionState) (candidates : List CandidateRow)
    (fallback_pick : Option ℕ) : NextQuestionResult × SessionState :=
  let s := st.session
  if s.status ≠ "in_progress" then
    (.already_done s.status s.current_ability s.questions_answered, st)
  else if s.questions_answered ≥ s.max_questions ∨
      (s.questions_answered ≥ s.min_questions ∧ |s.current_ability - s.passing_standard| > 1) then
    let decision := if s.current_ability ≥ s.passing_standard then "passed" else "failed"
    (.completed decision s.current_ability s.questions_answered,
     { st with session := { s with status := decision } })
  else
    let scan := select_max_info s.current_ability (candidates.take 50)
    let chosen := scan.2 <|> fallback_pick
    (.next_question chosen (s.questions_answered + 1),
     { st with
        session := { s with questions_answered := s.questions_answered + 1 },
        selections := st.selections ++
          [{ question_id := chosen,
             position := s.questions_answered + 1,
             ability_estimate_before := s.current_ability,
             ability_estimate_after := none,
             information_value := scan.1,
             was_correct := none }] })

/-- What `submit_cat_answer` returns (`json_build_object` fields). -/
structure SubmitCatResult where
  is_correct : Option Bool
  score : ℚ
  ability : ℝ
  questions_answered : ℕ

/-- The join of `cat_question_selections` with
`question_difficulty_parameters` read by `estimate_ability_mle`;
selections whose question has no parameter row drop out of the join. -/
noncomputable def mle_items (qdp : List QdpRow) (selections : List Selection) : List AnsweredItem :=
  selections.filterMap fun sel =>
    sel.question_id.bind fun qid =>
      (qdp.find? fun p => p.question_id = qid).map fun p =>
        { discrimination := p.discrimination,
          difficulty := p.difficulty,
          guessing := p.guessing,
          was_correct := sel.was_correct = some true }

/-- The second UPDATE of `submit_cat_answer`: writes
`ability_estimate_after` on the row whose id was captured by
`RETURNING id INTO v_selection_id` (the first updated row; no row is
touched when the earlier UPDATE matched nothing). -/
noncomputable def set_ability_after : List Selection → ℕ → ℝ → List Selection
  | [], _, _ => []
  | sel :: rest, qid, ability =>
    if sel.question_id = some qid then
      { sel with ability_estimate_after := some ability } :: rest
    else
      sel :: set_ability_after rest qid ability

/-- Error message standing for the unique-constraint violation raised
by the `test_results` INSERT (`UNIQUE(test_id, question_id)`), which
aborts the whole `submit_cat_answer` transaction. -/
def duplicate_result_error : String := "duplicate key value violates unique constraint on test_results"

/-- `submit_cat_answer`: scores the answer through
`submit_test_answer` (whose `test_results` INSERT fails on a duplicate
question), records `was_correct` on the matching selection rows,
re-estimates the ability over the full selection history, writes
`ability_estimate_after`, and updates the session's `current_ability`.
The error case models the aborted transaction: no state survives. -/
noncomputable def submit_cat_answer (qdp : List QdpRow) (st : SessionState)
    (q : QuestionRow) (user_response : List ℕ) :
    Except String (SubmitCatResult × SessionState) :=
  if st.results.any (fun r => r.question_id = q.id) then
    Except.error duplicate_result_error
  else
    let sc := score_answer q user_response
    let results' := st.results ++
      [{ question_id := q.id, user_response := user_response,
         is_correct := sc.is_correct, score := sc.score, max_score := sc.max_score }]
    let selections' := st.selections.map fun sel =>
      if sel.question_id = some q.id then { sel with was_correct := sc.is_correct } else sel
    let ability := estimate_ability_mle (mle_items qdp selections') st.session.current_ability
    Except.ok
      ({ is_correct := sc.is_correct, score := sc.score, ability := ability,
         questions_answered := st.session.questions_answered },
       { session := { st.session with current_ability := ability },
         selections := set_ability_after selections' q.id ability,
         results := results' })

/-- The session-creating core of `create_cat_test`: given the id list
the pool query produced, fail when it is empty, otherwise open a
session with `max_questions = LEAST(p_max_questions, v_question_count)`
and zeroed ability/progress.  (Pool construction — tier ordering and
randomization — is abstracted into the input id list.) -/
noncomputable def create_cat_test (p_min_questions p_max_questions : ℕ)
    (p_passing_standard : ℝ) (question_ids : List ℕ) : Option CatSessionRow :=
  if question_ids.length = 0 then none
  else some
    { current_ability := 0,
      passing_standard := p_passing_standard,
      min_questions := p_min_questions,
      max_questions := min p_max_questions question_ids.length,
      questions_answered := 0,
      status := "in_progress" }

/-! ### Concrete example data used by witnesses and counterexamples -/

/-- A two-option `Multiple Choice` question (id 1, correct option 10). -/
def q_mc : QuestionRow :=
  { id := 1, question_format := "Multiple Choice", use_partial_scoring := false,
    answers := [{ id := 10, is_correct := true, partial_credit := 1, penalty_value := 0 },
                { id := 11, is_correct := false, partial_credit := 0, penalty_value := 0 }] }

/-- A second `Multiple Choice` question (id 2, correct option 20). -/
def q_mc2 : QuestionRow :=
  { id := 2, question_format := "Multiple Choice", use_partial_scoring := false,
    answers := [{ id := 20, is_correct := true, partial_credit := 1, penalty_value := 0 },
                { id := 21, is_correct := false, partial_credit := 0, penalty_value := 0 }] }

/-- A SATA question with partial scoring whose single correct option
carries `partial_credit = 1/2`. -/
def q_sata_half : QuestionRow :=
  { id := 3, question_format := "Select All That Apply", use_partial_scoring := true,
    answers := [{ id := 30, is_correct := true, partial_credit := 1/2, penalty_value := 1/4 },
                { id := 31, is_correct := false, partial_credit := 0, penalty_value := 1/4 }] }

/-- A SATA question with partial scoring whose single correct option
carries full `partial_credit = 1`. -/
def q_sata_full : QuestionRow :=
  { id := 4, question_format := "Select All That Apply", use_partial_scoring := true,
    answers := [{ id := 40, is_correct := true, partial_credit := 1, penalty_value := 1/4 },
                { id := 41, is_correct := false, partial_credit := 0, penalty_value := 1/4 }] }

/-- The in-flight selection of question 1 at position 1. -/
noncomputable def sel_q1 : Selection :=
  { question_id := some 1, position := 1, ability_estimate_before := 0,
    ability_estimate_after := none, information_value := 1, was_correct := none }

/-- A session that has served question 1 (in flight, unanswered). -/
noncomputable def st_one_in_flight : SessionState :=
  { session := { current_ability := 0, passing_standard := 0, min_questions := 1,
                 max_questions := 2, questions_answered := 1, status := "in_progress" },
    selections := [sel_q1], results := [] }

/-- The ability the MLE produces after question 1 is answered correctly
in `st_one_in_flight` with an empty parameter table. -/
noncomputable def theta_after_q1 : ℝ :=
  estimate_ability_mle
    (mle_items []
      [{ question_id := some 1, position := 1, ability_estimate_before := 0,
         ability_estimate_after := none, information_value := 1, was_correct := some true }])
    0

/-- The state `submit_cat_answer` produces from `st_one_in_flight` on a
correct answer to question 1. -/
noncomputable def st_after_q1 : SessionState :=
  { session := { current_ability := theta_after_q1, passing_standard := 0, min_questions := 1,
                 max_questions := 2, questions_answered := 1, status := "in_progress" },
    selections := [{ question_id := some 1, position := 1, ability_estimate_before := 0,
                     ability_estimate_after := some theta_after_q1, information_value := 1,
                     was_correct := some true }],
    results := [{ question_id := 1, user_response := [10], is_correct := some true,
                  score := 1, max_score := 1 }] }

/-- The JSON payload of that first successful `submit_cat_answer` call. -/
noncomputable def result_after_q1 : SubmitCatResult :=
  { is_correct := some true, score := 1, ability := theta_after_q1, questions_answered := 1 }

/-! ### Helper lemmas -/

lemma clamp_logit_mono {x y : ℝ} (h : x ≤ y) : clamp_logit x ≤ clamp_logit y := by
  unfold clamp_logit
  split_ifs <;> linarith

lemma one_add_exp_pos (L : ℝ) : 0 < 1 + Real.exp L := by positivity

lemma clamp_ability_mem (x : ℝ) : -4 ≤ clamp_ability x ∧ clamp_ability x ≤ 4 := by
  unfold clamp_ability
  split_ifs <;> constructor <;> linarith

lemma mle_step_mem (items : List AnsweredItem) (a : ℝ) :
    -4 ≤ mle_step items a ∧ mle_step items a ≤ 4 := by
  unfold mle_step
  exact clamp_ability_mem _

lemma mle_iterate_mem (items : List AnsweredItem) :
    ∀ (n : ℕ) (a p : ℝ), -4 ≤ a → a ≤ 4 →
      -4 ≤ mle_iterate items n a p ∧ mle_iterate items n a p ≤ 4 := by
  intro n
  induction n with
  | zero => intro a p h1 h2; exact ⟨h1, h2⟩
  | succ k ih =>
    intro a p h1 h2
    rw [mle_iterate]
    split_ifs
    · exact ih _ _ (mle_step_mem items a).1 (mle_step_mem items a).2
    · exact ⟨h1, h2⟩

lemma mle_iteration_count_le (items : List AnsweredItem) :
    ∀ (n : ℕ) (a p : ℝ), mle_iteration_count items n a p ≤ n := by
  intro n
  induction n with
  | zero => intro a p; rw [mle_iteration_count]
  | succ k ih =>
    intro a p
    rw [mle_iteration_count]
    split_ifs
    · exact Nat.succ_le_succ (ih _ _)
    · exact Nat.zero_le _

lemma mle_iterate_early_stop (items : List AnsweredItem) (n : ℕ) (a p : ℝ)
    (h : |a - p| ≤ 0.001) : mle_iterate items n a p = a := by
  cases n with
  | zero => rw [mle_iterate]
  | succ k => rw [mle_iterate, if_neg (not_lt.mpr h)]

lemma greatest_eq_max (x y : ℚ) : greatest x y = max x y := by
  rw [greatest, max_def]

lemma sata_raw_score_shift (user_response : List ℕ) :
    ∀ (l : List AnswerRow) (s : ℚ),
      l.foldl (fun t a => t + sata_option_contribution user_response a) s =
        s + sata_raw_score l user_response := by
  intro l
  induction l with
  | nil => intro s; simp [sata_raw_score]
  | cons a l ih =>
    intro s
    rw [List.foldl_cons, ih]
    have h0 : sata_raw_score (a :: l) user_response =
        (0 + sata_option_contribution user_response a) + sata_raw_score l user_response := by
      rw [sata_raw_score, List.foldl_cons, ih]
    rw [h0]
    ring

lemma sata_raw_score_cons (user_response : List ℕ) (a : AnswerRow) (l : List AnswerRow) :
    sata_raw_score (a :: l) user_response =
      sata_option_contribution user_response a + sata_raw_score l user_response := by
  rw [sata_raw_score, List.foldl_cons, sata_raw_score_shift]
  ring

/-- With full partial credit on every correct option, a response
selecting exactly the correct options sums to the number of correct
options. -/
lemma sata_raw_score_exact_match (user_response : List ℕ) :
    ∀ l : List AnswerRow,
      (∀ b ∈ l, b.is_correct = true → b.partial_credit = 1) →
      (∀ b ∈ l, b.id ∈ user_response ↔ b.is_correct = true) →
      sata_raw_score l user_response = ((l.filter fun b => b.is_correct).length : ℚ) := by
  intro l
  induction l with
  | nil => intro _ _; simp [sata_raw_score]
  | cons a l ih =>
    intro hpc hresp
    have hl := ih (fun b hb => hpc b (List.mem_cons_of_mem a hb))
      (fun b hb => hresp b (List.mem_cons_of_mem a hb))
    rw [sata_raw_score_cons, hl]
    by_cases hc : a.is_correct = true
    · have hin : a.id ∈ user_response := (hresp a (List.mem_cons_self a l)).mpr hc
      have h1 : sata_option_contribution user_response a = 1 := by
        rw [sata_option_contribution, if_pos ⟨hin, hc⟩]
        exact hpc a (List.mem_cons_self a l) hc
      rw [h1]
      simp [List.filter_cons, hc]
      ring
    · have hnin : a.id ∉ user_response := fun hin => hc ((hresp a (List.mem_cons_self a l)).mp hin)
      have h0 : sata_option_contribution user_response a = 0 := by
        rw [sata_option_contribution, if_neg (fun h => hnin h.1),
          if_neg (fun h => hnin h.1), if_neg (fun h => hc h.2)]
      rw [h0]
      simp [List.filter_cons, hc]

/-- On an empty response the SATA sum is minus the summed partial
credit of the correct options (here with full credit: minus their
count). -/
lemma sata_raw_score_empty_response :
    ∀ l : List AnswerRow,
      (∀ b ∈ l, b.is_correct = true → b.partial_credit = 1) →
      sata_raw_score l [] = -((l.filter fun b => b.is_correct).length : ℚ) := by
  intro l
  induction l with
  | nil => intro _; simp [sata_raw_score]
  | cons a l ih =>
    intro hpc
    have hl := ih fun b hb => hpc b (List.mem_cons_of_mem a hb)
    rw [sata_raw_score_cons, hl]
    by_cases hc : a.is_correct = true
    · have h1 : sata_option_contribution [] a = -1 := by
        rw [sata_option_contribution, if_neg (by simp), if_neg (by simp),
          if_pos ⟨by simp, hc⟩, hpc a (List.mem_cons_self a l) hc]
      rw [h1]
      simp [List.filter_cons, hc]
    · have h0 : sata_option_contribution [] a = 0 := by
        rw [sata_option_contribution, if_neg (by simp), if_neg (by simp),
          if_neg (fun h => hc h.2)]
      rw [h0]
      simp [List.filter_cons, hc]

lemma map_was_correct_untouched (qid : ℕ) (v : Option Bool) :
    ∀ l : List Selection, (∀ s ∈ l, s.question_id ≠ some qid) →
      (l.map fun s => if s.question_id = some qid then { s with was_correct := v } else s) = l := by
  intro l
  induction l with
  | nil => intro _; rfl
  | cons a t ih =>
    intro h
    rw [List.map_cons, if_neg (h a (List.mem_cons_self a t)),
      ih fun s hs => h s (List.mem_cons_of_mem a hs)]

/-- The `UPDATE cat_question_selections SET was_correct = ...` of
`submit_cat_answer` touches exactly the selection rows whose
`question_id` matches. -/
lemma map_was_correct_update (qid : ℕ) (v : Option Bool) (sel : Selection)
    (hsel : sel.question_id = some qid) :
    ∀ l₁ l₂ : List Selection, (∀ s ∈ l₁ ++ l₂, s.question_id ≠ some qid) →
      ((l₁ ++ sel :: l₂).map
          fun s => if s.question_id = some qid then { s with was_correct := v } else s) =
        l₁ ++ { sel with was_correct := v } :: l₂ := by
  intro l₁
  induction l₁ with
  | nil =>
    intro l₂ honly
    rw [List.nil_append, List.map_cons, if_pos hsel,
      map_was_correct_untouched qid v l₂ fun s hs => honly s (by simpa using hs),
      List.nil_append]
  | cons a t ih =>
    intro l₂ honly
    rw [List.cons_append, List.map_cons,
      if_neg (honly a (by simp)),
      ih l₂ fun s hs => honly s (by
        rcases List.mem_append.mp hs with h | h
        · exact List.mem_append_left _ (List.mem_cons_of_mem a h)
        · exact List.mem_append_right _ h),
      List.cons_append]

/-- The `UPDATE ... SET ability_estimate_after` of `submit_cat_answer`
writes the new estimate onto the first matching selection row. -/
lemma set_ability_after_append (qid : ℕ) (θ : ℝ) (u : Selection)
    (hu : u.question_id = some qid) :
    ∀ l₁ l₂ : List Selection, (∀ s ∈ l₁, s.question_id ≠ some qid) →
      set_ability_after (l₁ ++ u :: l₂) qid θ =
        l₁ ++ { u with ability_estimate_after := some θ } :: l₂ := by
  intro l₁
  induction l₁ with
  | nil =>
    intro l₂ _
    rw [List.nil_append, set_ability_after, if_pos hu, List.nil_append]
  | cons a t ih =>
    intro l₂ h
    rw [List.cons_append, set_ability_after, if_neg (h a (List.mem_cons_self a t)),
      ih l₂ fun s hs => h s (List.mem_cons_of_mem a hs), List.cons_append]

/-- Characterization of the `IF v_info > v_max_info` scan: either no
candidate beats the accumulator (which is then returned unchanged), or
the scan returns the information and id of the first candidate
attaining the maximum, every earlier candidate being strictly below it
and every later one at most equal. -/
lemma max_info_scan_spec (θ : ℝ) :
    ∀ (l : List CandidateRow) (acc : ℝ × Option ℕ),
      (max_info_scan θ acc l = acc ∧ ∀ c ∈ l, candidate_information θ c ≤ acc.1) ∨
      (∃ l₁ c l₂, l = l₁ ++ c :: l₂ ∧
        max_info_scan θ acc l = (candidate_information θ c, some c.id) ∧
        acc.1 < candidate_information θ c ∧
        (∀ d ∈ l₁, candidate_information θ d < candidate_information θ c) ∧
        (∀ d ∈ l₂, candidate_information θ d ≤ candidate_information θ c)) := by
  intro l
  induction l with
  | nil => intro acc; exact Or.inl ⟨rfl, by simp⟩
  | cons x xs ih =>
    intro acc
    by_cases hx : candidate_information θ x > acc.1
    · have hstep : max_info_scan θ acc (x :: xs) =
          max_info_scan θ (candidate_information θ x, some x.id) xs := by
        simp [max_info_scan, hx]
      rcases ih (candidate_information θ x, some x.id) with ⟨heq, hall⟩ |
        ⟨l₁, c, l₂, hdec, heq, hgt, hl₁, hl₂⟩
      · exact Or.inr ⟨[], x, xs, rfl, by rw [hstep, heq], hx, by simp,
          by simpa using hall⟩
      · refine Or.inr ⟨x :: l₁, c, l₂, by rw [hdec, List.cons_append], by rw [hstep, heq],
          lt_trans hx hgt, ?_, hl₂⟩
        intro d hd
        rcases List.mem_cons.mp hd with rfl | hd'
        · exact hgt
        · exact hl₁ d hd'
    · have hstep : max_info_scan θ acc (x :: xs) = max_info_scan θ acc xs := by
        simp [max_info_scan, hx]
      rcases ih acc with ⟨heq, hall⟩ | ⟨l₁, c, l₂, hdec, heq, hgt, hl₁, hl₂⟩
      · refine Or.inl ⟨by rw [hstep, heq], ?_⟩
        intro c hc
        rcases List.mem_cons.mp hc with rfl | hc'
        · exact not_lt.mp hx
        · exact hall c hc'
      · refine Or.inr ⟨x :: l₁, c, l₂, by rw [hdec, List.cons_append], by rw [hstep, heq], hgt, ?_, hl₂⟩
        intro d hd
        rcases List.mem_cons.mp hd with rfl | hd'
        · exact lt_of_le_of_lt (not_lt.mp hx) hgt
        · exact hl₁ d hd'

/-! ### Claim theorems -/

/-- C10: `create_cat_test` stores `LEAST(p_max_questions, question_count)`
as the session's `max_questions`, which therefore never exceeds the pool
size. -/
theorem create_cat_test_caps_max_questions (p_min p_max : ℕ) (pass : ℝ) (ids : List ℕ)
    (h : ids ≠ []) :
    (create_cat_test p_min p_max pass ids).map (fun s => s.max_questions)
        = some (min p_max ids.length) ∧
      min p_max ids.length ≤ ids.length := by
  have hlen : ¬ ids.length = 0 := by simpa using h
  exact ⟨by simp [create_cat_test, hlen], Nat.min_le_right _ _⟩

/-- Witness for C10 at a concrete three-question pool. -/
theorem create_cat_test_caps_max_questions_witness :
    (create_cat_test 75 145 0 [1, 2, 3]).map (fun s => s.max_questions)
        = some (min 145 [1, 2, 3].length) ∧
      min 145 [1, 2, 3].length ≤ [1, 2, 3].length :=
  create_cat_test_caps_max_questions 75 145 0 [1, 2, 3] (by decide)

/-- C9: for `a > 0`, `c ∈ [0,1)` the 3PL probability (with its logit
clamped to `[-35, 35]`) lies in `[0, 1]` and is monotone in the
ability. -/
theorem calculate_probability_bounds_monotone (θ₁ θ₂ a b c : ℝ)
    (ha : 0 < a) (hc0 : 0 ≤ c) (hc1 : c < 1) :
    0 ≤ calculate_probability θ₁ a b c ∧ calculate_probability θ₁ a b c ≤ 1 ∧
      (θ₁ ≤ θ₂ → calculate_probability θ₁ a b c ≤ calculate_probability θ₂ a b c) := by
  have hc1' : (0 : ℝ) ≤ 1 - c := by linarith
  refine ⟨?_, ?_, ?_⟩
  · have hd : 0 ≤ (1 - c) / (1 + Real.exp (-(clamp_logit (a * (θ₁ - b))))) :=
      div_nonneg hc1' (one_add_exp_pos _).le
    unfold calculate_probability
    linarith
  · have hd : (1 - c) / (1 + Real.exp (-(clamp_logit (a * (θ₁ - b))))) ≤ 1 - c := by
      apply div_le_self hc1'
      have := Real.exp_pos (-(clamp_logit (a * (θ₁ - b))))
      linarith
    unfold calculate_probability
    linarith
  · intro hθ
    have hL : clamp_logit (a * (θ₁ - b)) ≤ clamp_logit (a * (θ₂ - b)) :=
      clamp_logit_mono (by nlinarith)
    have hexp : Real.exp (-(clamp_logit (a * (θ₂ - b))))
        ≤ Real.exp (-(clamp_logit (a * (θ₁ - b)))) :=
      Real.exp_le_exp.mpr (neg_le_neg hL)
    have hdiv : (1 - c) / (1 + Real.exp (-(clamp_logit (a * (θ₁ - b)))))
        ≤ (1 - c) / (1 + Real.exp (-(clamp_logit (a * (θ₂ - b))))) := by
      gcongr
    unfold calculate_probability
    linarith

/-- Witness for C9 at `θ₁ = 0`, `θ₂ = 1`, `a = 1`, `b = 0`, `c = 0`. -/
theorem calculate_probability_bounds_monotone_witness :
    0 ≤ calculate_probability 0 1 0 0 ∧ calculate_probability 0 1 0 0 ≤ 1 ∧
      calculate_probability 0 1 0 0 ≤ calculate_probability 1 1 0 0 := by
  have h := calculate_probability_bounds_monotone 0 1 1 0 0 (by norm_num) (by norm_num)
    (by norm_num)
  exact ⟨h.1, h.2.1, h.2.2 (by norm_num)⟩

/-- C8: the MLE loop runs at most 50 Newton-Raphson iterations, stops
as soon as the update moved by at most 0.001, and — the ability being
clamped to `[-4, 4]` after every update — returns an estimate in
`[-4, 4]` whenever the session's stored starting ability is in that
range. -/
theorem estimate_ability_mle_bounded (items : List AnsweredItem) (init : ℝ)
    (h1 : -4 ≤ init) (h2 : init ≤ 4) :
    mle_iteration_count items 50 init (-999) ≤ 50 ∧
      (∀ (n : ℕ) (a p : ℝ), |a - p| ≤ 0.001 → mle_iterate items n a p = a) ∧
      -4 ≤ estimate_ability_mle items init ∧ estimate_ability_mle items init ≤ 4 := by
  refine ⟨mle_iteration_count_le items 50 init (-999),
    fun n a p h => mle_iterate_early_stop items n a p h, ?_, ?_⟩
  · exact (mle_iterate_mem items 50 init (-999) h1 h2).1
  · exact (mle_iterate_mem items 50 init (-999) h1 h2).2

/-- Witness for C8 on the empty history starting at ability 0. -/
theorem estimate_ability_mle_bounded_witness :
    mle_iteration_count [] 50 0 (-999) ≤ 50 ∧
      (∀ (n : ℕ) (a p : ℝ), |a - p| ≤ 0.001 → mle_iterate [] n a p = a) ∧
      -4 ≤ estimate_ability_mle [] 0 ∧ estimate_ability_mle [] 0 ≤ 4 :=
  estimate_ability_mle_bounded [] 0 (by norm_num) (by norm_num)

/-- C5: on an in-progress session, `get_next_cat_question` terminates
the session exactly when `questions_answered ≥ max_questions` or when
`questions_answered ≥ min_questions` and
`|current_ability - passing_standard| > 1.0`, deciding `passed` iff
`current_ability ≥ passing_standard`; otherwise it selects a question. -/
theorem get_next_cat_question_stopping_rule (st : SessionState)
    (candidates : List CandidateRow) (fallback_pick : Option ℕ)
    (hin : st.session.status = "in_progress") :
    (st.session.questions_answered ≥ st.session.max_questions ∨
        (st.session.questions_answered ≥ st.session.min_questions ∧
          |st.session.current_ability - st.session.passing_standard| > 1) →
      get_next_cat_question st candidates fallback_pick =
        (.completed
            (if st.session.current_ability ≥ st.session.passing_standard then "passed"
             else "failed")
            st.session.current_ability st.session.questions_answered,
         { st with session := { st.session with status :=
            if st.session.current_ability ≥ st.session.passing_standard then "passed"
            else "failed" } })) ∧
    (¬(st.session.questions_answered ≥ st.session.max_questions ∨
        (st.session.questions_answered ≥ st.session.min_questions ∧
          |st.session.current_ability - st.session.passing_standard| > 1)) →
      (get_next_cat_question st candidates fallback_pick).1 =
          .next_question
            ((select_max_info st.session.current_ability (candidates.take 50)).2
              <|> fallback_pick)
            (st.session.questions_answered + 1) ∧
        (get_next_cat_question st candidates fallback_pick).2.session.status = "in_progress" ∧
        (get_next_cat_question st candidates fallback_pick).2.selections.length =
          st.selections.length + 1) := by
  constructor
  · intro hstop
    unfold get_next_cat_question
    rw [if_neg (by simp [hin]), if_pos hstop]
  · intro hstop
    unfold get_next_cat_question
    rw [if_neg (by simp [hin]), if_neg hstop]
    exact ⟨rfl, hin, by simp⟩

/-- Witness for C5: a session that has reached `max_questions` with
ability 0 against passing standard 0 completes as `passed`. -/
theorem get_next_cat_question_stopping_rule_witness :
    get_next_cat_question
        { session := { current_ability := 0, passing_standard := 0, min_questions := 1,
                       max_questions := 1, questions_answered := 1, status := "in_progress" },
          selections := [], results := [] } [] none =
      (.completed "passed" 0 1,
       { session := { current_ability := 0, passing_standard := 0, min_questions := 1,
                      max_questions := 1, questions_answered := 1, status := "passed" },
         selections := [], results := [] }) := by
  have h := (get_next_cat_question_stopping_rule
      { session := { current_ability := 0, passing_standard := 0, min_questions := 1,
                     max_questions := 1, questions_answered := 1, status := "in_progress" },
        selections := [], results := [] } [] none rfl).1 (Or.inl le_rfl)
  rw [h]
  norm_num

/-- C7: calling `get_next_cat_question` on a session that is no longer
in progress reports the terminal status without error and without
mutating the state, and neither operation ever moves a session's status
back to `in_progress`. -/
theorem get_next_cat_question_terminal_idempotent (st : SessionState)
    (candidates : List CandidateRow) (fallback_pick : Option ℕ)
    (hdone : st.session.status ≠ "in_progress") :
    get_next_cat_question st candidates fallback_pick =
      (.already_done st.session.status st.session.current_ability
        st.session.questions_answered, st) ∧
    (∀ (st₂ : SessionState) (c₂ : List CandidateRow) (f₂ : Option ℕ),
      (get_next_cat_question st₂ c₂ f₂).2.session.status = "in_progress" →
        st₂.session.status = "in_progress") ∧
    (∀ (qdp : List QdpRow) (st₂ : SessionState) (q : QuestionRow) (resp : List ℕ)
        (r : SubmitCatResult) (st₂' : SessionState),
      submit_cat_answer qdp st₂ q resp = Except.ok (r, st₂') →
        st₂'.session.status = st₂.session.status) := by
  refine ⟨?_, ?_, ?_⟩
  · unfold get_next_cat_question
    rw [if_pos hdone]
  · intro st₂ c₂ f₂ h
    by_cases hs : st₂.session.status = "in_progress"
    · exact hs
    · unfold get_next_cat_question at h
      rw [if_pos hs] at h
      exact absurd h hs
  · intro qdp st₂ q resp r st₂' h
    unfold submit_cat_answer at h
    split_ifs at h
    simp only [Except.ok.injEq, Prod.mk.injEq] at h
    rw [← h.2]

/-- Witness for C7 on a concrete already-passed session. -/
theorem get_next_cat_question_terminal_idempotent_witness :
    get_next_cat_question
        { session := { current_ability := 2, passing_standard := 0, min_questions := 1,
                       max_questions := 5, questions_answered := 3, status := "passed" },
          selections := [], results := [] } [] none =
      (.already_done "passed" 2 3,
       { session := { current_ability := 2, passing_standard := 0, min_questions := 1,
                      max_questions := 5, questions_answered := 3, status := "passed" },
         selections := [], results := [] }) :=
  (get_next_cat_question_terminal_idempotent
    { session := { current_ability := 2, passing_standard := 0, min_questions := 1,
                   max_questions := 5, questions_answered := 3, status := "passed" },
      selections := [], results := [] } [] none (by decide)).1

/-- C6: when an in-progress session is not stopped, the Item Selector
evaluates the information of at most 50 not-yet-selected candidates at
the current ability, picks the first-seen candidate of strictly maximal
positive information, falls back to the randomly drawn
`fallback_pick` when the shortlist is empty or yields no positive
information, and records a Selection with `position =
questions_answered + 1`, `ability_estimate_before` = the current
estimate, `information_value` = the winning information, and
`was_correct` / `ability_estimate_after` unset. -/
theorem get_next_cat_question_selects_max_information (st : SessionState)
    (candidates : List CandidateRow) (fallback_pick : Option ℕ)
    (hin : st.session.status = "in_progress")
    (hnostop : ¬(st.session.questions_answered ≥ st.session.max_questions ∨
      (st.session.questions_answered ≥ st.session.min_questions ∧
        |st.session.current_ability - st.session.passing_standard| > 1))) :
    (candidates.take 50).length ≤ 50 ∧
    ((∃ c ∈ candidates.take 50, 0 < candidate_information st.session.current_ability c) →
      ∃ l₁ c l₂, candidates.take 50 = l₁ ++ c :: l₂ ∧
        select_max_info st.session.current_ability (candidates.take 50) =
          (candidate_information st.session.current_ability c, some c.id) ∧
        0 < candidate_information st.session.current_ability c ∧
        (∀ d ∈ l₁, candidate_information st.session.current_ability d <
          candidate_information st.session.current_ability c) ∧
        (∀ d ∈ l₂, candidate_information st.session.current_ability d ≤
          candidate_information st.session.current_ability c)) ∧
    ((∀ c ∈ candidates.take 50, candidate_information st.session.current_ability c ≤ 0) →
      select_max_info st.session.current_ability (candidates.take 50) = (0, none)) ∧
    get_next_cat_question st candidates fallback_pick =
      (.next_question
          ((select_max_info st.session.current_ability (candidates.take 50)).2 <|> fallback_pick)
          (st.session.questions_answered + 1),
       { st with
          session := { st.session with
            questions_answered := st.session.questions_answered + 1 },
          selections := st.selections ++
            [{ question_id :=
                 (select_max_info st.session.current_ability (candidates.take 50)).2
                   <|> fallback_pick,
               position := st.session.questions_answered + 1,
               ability_estimate_before := st.session.current_ability,
               ability_estimate_after := none,
               information_value :=
                 (select_max_info st.session.current_ability (candidates.take 50)).1,
               was_correct := none }] }) := by
  refine ⟨List.length_take_le 50 candidates, ?_, ?_, ?_⟩
  · intro ⟨c0, hc0, hpos⟩
    rcases max_info_scan_spec st.session.current_ability (candidates.take 50) (0, none) with
      ⟨_, hall⟩ | ⟨l₁, c, l₂, hdec, heq, hgt, hl₁, hl₂⟩
    · exact absurd hpos (not_lt.mpr (hall c0 hc0))
    · exact ⟨l₁, c, l₂, hdec, heq, hgt, hl₁, hl₂⟩
  · intro hall
    rcases max_info_scan_spec st.session.current_ability (candidates.take 50) (0, none) with
      ⟨heq, _⟩ | ⟨l₁, c, l₂, hdec, _, hgt, _, _⟩
    · exact heq
    · have hc : c ∈ candidates.take 50 := by
        rw [hdec]; exact List.mem_append_right _ (List.mem_cons_self _ _)
      exact absurd hgt (not_lt.mpr (hall c hc))
  · unfold get_next_cat_question
    rw [if_neg (by simp [hin]), if_neg hnostop]

/-- Witness for C6: with an empty shortlist the random fallback (id 7)
is selected and recorded at position 1. -/
theorem get_next_cat_question_selects_max_information_witness :
    get_next_cat_question
        { session := { current_ability := 0, passing_standard := 0, min_questions := 2,
                       max_questions := 3, questions_answered := 0, status := "in_progress" },
          selections := [], results := [] } [] (some 7) =
      (.next_question (some 7) 1,
       { session := { current_ability := 0, passing_standard := 0, min_questions := 2,
                      max_questions := 3, questions_answered := 1, status := "in_progress" },
         selections := [{ question_id := some 7, position := 1,
                          ability_estimate_before := 0, ability_estimate_after := none,
                          information_value := 0, was_correct := none }],
         results := [] }) := by
  have h := get_next_cat_question_selects_max_information
      { session := { current_ability := 0, passing_standard := 0, min_questions := 2,
                     max_questions := 3, questions_answered := 0, status := "in_progress" },
        selections := [], results := [] } [] (some 7) rfl
      (by
        intro hstop
        rcases hstop with h1 | ⟨h2, _⟩
        · exact absurd h1 (by norm_num)
        · exact absurd h2 (by norm_num))
  rw [h.2.2.2]
  simp [select_max_info, max_info_scan]

/-- C3 (counterexample): a `Multiple Choice` response selecting an id
that is not one of the question's options gets `score = 0`,
`max_score = 1`, but `is_correct` stays NULL (`none`) instead of the
claimed `false = (score == maxScore)`. -/
theorem score_answer_mc_null_counterexample :
    score_answer q_mc [99] = { is_correct := none, score := 0, max_score := 1 } ∧
      (none : Option Bool) ≠ some false := by
  decide

/-- C3 (amended): for a single-best-answer question (unique correct
option `a`) and a response selecting one of the question's option ids,
the scoring engine gives `score = 1` iff the selected id is the correct
one, `max_score = 1`, and `is_correct = some (score == maxScore)`. -/
theorem score_answer_single_best (q : QuestionRow) (x : ℕ) (a : AnswerRow)
    (ha : a ∈ q.answers)
    (hcorr : ∀ b ∈ q.answers, b.is_correct = true ↔ b.id = a.id)
    (hx : x ∈ q.answers.map AnswerRow.id)
    (hfmt : q.question_format = "Multiple Choice" ∨
      ¬(q.question_format = "Select All That Apply" ∧ q.use_partial_scoring = true)) :
    (score_answer q [x]).score = (if x = a.id then 1 else 0) ∧
      (score_answer q [x]).max_score = 1 ∧
      (score_answer q [x]).is_correct =
        some (decide ((score_answer q [x]).score = (score_answer q [x]).max_score)) := by
  by_cases hmc : q.question_format = "Multiple Choice"
  · obtain ⟨b, hbmem, hbid⟩ : ∃ b ∈ q.answers, b.id = x := by simpa using hx
    have hsome : (q.answers.find? fun c => c.id = x).isSome :=
      List.find?_isSome.mpr ⟨b, hbmem, by simp [hbid]⟩
    obtain ⟨b₀, hb₀⟩ := Option.isSome_iff_exists.mp hsome
    have hb₀x : b₀.id = x := by simpa using List.find?_some hb₀
    have hb₀mem : b₀ ∈ q.answers := List.mem_of_find?_eq_some hb₀
    have hfound : ([x].head?.bind fun r => q.answers.find? fun c => c.id = r) = some b₀ := hb₀
    have hscore : score_answer q [x] =
        { is_correct := some b₀.is_correct,
          score := if b₀.is_correct = true then 1 else 0,
          max_score := 1 } := by
      unfold score_answer
      rw [if_pos hmc]
      simp only [hfound, Option.map_some', Option.some.injEq]
    have hiff : b₀.is_correct = true ↔ x = a.id := by
      rw [hcorr b₀ hb₀mem, hb₀x]
    rw [hscore]
    refine ⟨?_, rfl, ?_⟩
    · by_cases hbc : b₀.is_correct = true
      · rw [if_pos hbc, if_pos (hiff.mp hbc)]
      · rw [if_neg hbc, if_neg fun h => hbc (hiff.mpr h)]
    · cases hbc : b₀.is_correct <;> norm_num
  · have hsata : ¬(q.question_format = "Select All That Apply" ∧
        q.use_partial_scoring = true) := hfmt.resolve_left hmc
    have hacorr : a.is_correct = true := (hcorr a ha).mpr rfl
    simp only [score_answer, if_neg hmc, if_neg hsata]
    by_cases hxa : x = a.id
    · have hmissed : (q.answers.any fun b => b.is_correct && decide (b.id ∉ [x])) = false := by
        rw [List.any_eq_false]
        intro b hb
        simp only [Bool.and_eq_true, decide_eq_true_eq, not_and, not_not]
        intro hbc
        simp only [List.mem_singleton]
        exact ((hcorr b hb).mp hbc).trans hxa.symm
      have hextra : (q.answers.any fun b => !b.is_correct && decide (b.id ∈ [x])) = false := by
        rw [List.any_eq_false]
        intro b hb
        simp only [Bool.and_eq_true, Bool.not_eq_true', decide_eq_true_eq, not_and,
          List.mem_singleton]
        intro hbc hbx
        have hbt : b.is_correct = true := (hcorr b hb).mpr (hbx.trans hxa)
        rw [hbt] at hbc
        exact Bool.noConfusion hbc
      rw [if_pos ⟨by rw [hmissed]; exact Bool.false_ne_true, by rw [hextra]; exact Bool.false_ne_true⟩]
      exact ⟨by rw [if_pos hxa], rfl, by norm_num⟩
    · have hmissed : (q.answers.any fun b => b.is_correct && decide (b.id ∉ [x])) = true := by
        refine List.any_eq_true.mpr ⟨a, ha, ?_⟩
        simp only [hacorr, Bool.true_and, decide_eq_true_eq, List.mem_singleton]
        exact fun h => hxa h.symm
      rw [if_neg fun h => h.1 hmissed]
      exact ⟨by rw [if_neg hxa], rfl, by norm_num⟩

/-- Witness for C3 (amended) on `q_mc` with the correct option 10
selected. -/
theorem score_answer_single_best_witness :
    (score_answer q_mc [10]).score = (if 10 = (10:ℕ) then 1 else 0) ∧
      (score_answer q_mc [10]).max_score = 1 ∧
      (score_answer q_mc [10]).is_correct =
        some (decide ((score_answer q_mc [10]).score = (score_answer q_mc [10]).max_score)) :=
  score_answer_single_best q_mc 10
    { id := 10, is_correct := true, partial_credit := 1, penalty_value := 0 }
    (by decide) (by decide) (by decide) (Or.inl rfl)

/-- C4 (counterexample): on a SATA question with partial scoring whose
correct option carries `partial_credit = 1/2`, selecting exactly the
correct set scores `1/2 ≠ 1 = maxScore` and `is_correct = some false`. -/
theorem score_answer_sata_partial_credit_counterexample :
    score_answer q_sata_half [30] = { is_correct := some false, score := 1/2, max_score := 1 } ∧
      (1/2 : ℚ) ≠ 1 := by
  constructor
  · unfold score_answer
    rw [if_neg (by decide), if_pos ⟨rfl, rfl⟩]
    norm_num [sata_raw_score, sata_option_contribution, q_sata_half, greatest]
  · norm_num

/-- C4 (amended): on a SATA question with partial scoring whose correct
options all carry `partial_credit = 1`, selecting exactly the correct
option set yields `score = maxScore` and `is_correct = true`, and the
empty selection always scores 0 (the negative sum is floored at 0). -/
theorem score_answer_sata_exact_and_empty (q : QuestionRow) (user_response : List ℕ)
    (hfmt : q.question_format = "Select All That Apply")
    (hup : q.use_partial_scoring = true)
    (hpc : ∀ b ∈ q.answers, b.is_correct = true → b.partial_credit = 1)
    (hresp : ∀ b ∈ q.answers, b.id ∈ user_response ↔ b.is_correct = true) :
    (score_answer q user_response).score = (score_answer q user_response).max_score ∧
      (score_answer q user_response).is_correct = some true ∧
      (score_answer q []).score = 0 := by
  have hmc : ¬ q.question_format = "Multiple Choice" := by simp [hfmt]
  have hsata : q.question_format = "Select All That Apply" ∧ q.use_partial_scoring = true :=
    ⟨hfmt, hup⟩
  have hcount : (0:ℚ) ≤ ((q.answers.filter fun b => b.is_correct).length : ℚ) := by positivity
  have hraw := sata_raw_score_exact_match user_response q.answers hpc hresp
  have hraw0 := sata_raw_score_empty_response q.answers hpc
  refine ⟨?_, ?_, ?_⟩
  · simp only [score_answer, if_neg hmc, if_pos hsata]
    rw [greatest_eq_max, hraw, max_eq_left hcount]
  · simp only [score_answer, if_neg hmc, if_pos hsata]
    rw [greatest_eq_max, hraw, max_eq_left hcount]
    simp
  · simp only [score_answer, if_neg hmc, if_pos hsata]
    rw [greatest_eq_max, hraw0, max_eq_right (neg_nonpos.mpr hcount)]

/-- Witness for C4 (amended) on `q_sata_full` with its correct option
40 selected. -/
theorem score_answer_sata_exact_and_empty_witness :
    (score_answer q_sata_full [40]).score = (score_answer q_sata_full [40]).max_score ∧
      (score_answer q_sata_full [40]).is_correct = some true ∧
      (score_answer q_sata_full []).score = 0 :=
  score_answer_sata_exact_and_empty q_sata_full [40] rfl rfl (by decide) (by decide)

/-- C1 (counterexample): a successful `submit_cat_answer` call leaves
`questions_answered` unchanged at 1 (the claim requires it to become 2);
the increment happens in `get_next_cat_question` instead. -/
theorem submit_cat_answer_no_increment_counterexample :
    (submit_cat_answer [] st_one_in_flight q_mc [10]).map
        (fun p => p.2.session.questions_answered) = Except.ok 1 ∧
      st_one_in_flight.session.questions_answered = 1 :=
  ⟨rfl, rfl⟩

/-- C1 (amended): a successful `submit_cat_answer` records `was_correct`
on the matching selection, re-runs the MLE over the full updated
selection history, writes `ability_estimate_after` onto that selection,
updates the session's `current_ability` — and leaves the session's
`questions_answered` unchanged; the increment by exactly 1 is performed
by `get_next_cat_question` when it records a selection. -/
theorem submit_cat_answer_effects (qdp : List QdpRow) (st : SessionState) (q : QuestionRow)
    (user_response : List ℕ) (l₁ l₂ : List Selection) (sel : Selection)
    (hdup : st.results.any (fun r => r.question_id = q.id) = false)
    (hdec : st.selections = l₁ ++ sel :: l₂)
    (hsel : sel.question_id = some q.id)
    (honly : ∀ s ∈ l₁ ++ l₂, s.question_id ≠ some q.id) :
    submit_cat_answer qdp st q user_response =
      Except.ok
        ({ is_correct := (score_answer q user_response).is_correct,
           score := (score_answer q user_response).score,
           ability := estimate_ability_mle
             (mle_items qdp
               (l₁ ++ { sel with was_correct := (score_answer q user_response).is_correct } :: l₂))
             st.session.current_ability,
           questions_answered := st.session.questions_answered },
         { session := { st.session with
             current_ability := estimate_ability_mle
               (mle_items qdp
                 (l₁ ++ { sel with was_correct := (score_answer q user_response).is_correct } :: l₂))
               st.session.current_ability },
           selections := l₁ ++
             { sel with
                was_correct := (score_answer q user_response).is_correct,
                ability_estimate_after := some (estimate_ability_mle
                  (mle_items qdp
                    (l₁ ++ { sel with
                      was_correct := (score_answer q user_response).is_correct } :: l₂))
                  st.session.current_ability) } :: l₂,
           results := st.results ++
             [{ question_id := q.id, user_response := user_response,
                is_correct := (score_answer q user_response).is_correct,
                score := (score_answer q user_response).score,
                max_score := (score_answer q user_response).max_score }] }) ∧
    (∀ (st₂ : SessionState) (c₂ : List CandidateRow) (f₂ : Option ℕ),
      st₂.session.status = "in_progress" →
      ¬(st₂.session.questions_answered ≥ st₂.session.max_questions ∨
        (st₂.session.questions_answered ≥ st₂.session.min_questions ∧
          |st₂.session.current_ability - st₂.session.passing_standard| > 1)) →
      (get_next_cat_question st₂ c₂ f₂).2.session.questions_answered =
        st₂.session.questions_answered + 1) := by
  have hmap := map_was_correct_update q.id (score_answer q user_response).is_correct sel hsel
    l₁ l₂ honly
  have hset := set_ability_after_append q.id
    (estimate_ability_mle
      (mle_items qdp
        (l₁ ++ { sel with was_correct := (score_answer q user_response).is_correct } :: l₂))
      st.session.current_ability)
    { sel with was_correct := (score_answer q user_response).is_correct }
    hsel l₁ l₂ fun s hs => honly s (List.mem_append_left _ hs)
  constructor
  · unfold submit_cat_answer
    rw [if_neg (by simp [hdup])]
    simp only [hdec, hmap, hset]
  · intro st₂ c₂ f₂ h1 h2
    unfold get_next_cat_question
    rw [if_neg (by simp [h1]), if_neg h2]

/-- Witness for C1 (amended): the effect equation instantiated on
`st_one_in_flight` with question 1 answered correctly. -/
theorem submit_cat_answer_effects_witness :
    submit_cat_answer [] st_one_in_flight q_mc [10] =
      Except.ok
        ({ is_correct := (score_answer q_mc [10]).is_correct,
           score := (score_answer q_mc [10]).score,
           ability := estimate_ability_mle
             (mle_items []
               ([] ++ { sel_q1 with was_correct := (score_answer q_mc [10]).is_correct } :: []))
             st_one_in_flight.session.current_ability,
           questions_answered := st_one_in_flight.session.questions_answered },
         { session := { st_one_in_flight.session with
             current_ability := estimate_ability_mle
               (mle_items []
                 ([] ++ { sel_q1 with was_correct := (score_answer q_mc [10]).is_correct } :: []))
               st_one_in_flight.session.current_ability },
           selections := [] ++
             { sel_q1 with
                was_correct := (score_answer q_mc [10]).is_correct,
                ability_estimate_after := some (estimate_ability_mle
                  (mle_items []
                    ([] ++ { sel_q1 with
                      was_correct := (score_answer q_mc [10]).is_correct } :: []))
                  st_one_in_flight.session.current_ability) } :: [],
           results := st_one_in_flight.results ++
             [{ question_id := q_mc.id, user_response := [10],
                is_correct := (score_answer q_mc [10]).is_correct,
                score := (score_answer q_mc [10]).score,
                max_score := (score_answer q_mc [10]).max_score }] }) :=
  (submit_cat_answer_effects [] st_one_in_flight q_mc [10] [] [] sel_q1 rfl rfl rfl
    (by simp)).1

/-- C2 (counterexample): `submit_cat_answer` accepts a question that
was never selected in the session (question 2 while only question 1 is
in flight) — no out-of-sequence rejection happens. -/
theorem submit_cat_answer_accepts_unselected_counterexample :
    (submit_cat_answer [] st_one_in_flight q_mc2 [20]).isOk = true ∧
      st_one_in_flight.selections.all
        (fun s => decide (s.question_id ≠ some q_mc2.id)) = true :=
  ⟨rfl, rfl⟩

/-- C2 (amended): `submit_cat_answer` rejects a question whose
`test_results` row already exists (the `UNIQUE(test_id, question_id)`
violation aborting the transaction, so no state change survives);
consequently a second call for an already-answered question always
fails, and `current_ability` keeps the value the first successful call
set.  Calls for questions without an existing result row are not
rejected, even when they are not the in-flight selection. -/
theorem submit_cat_answer_duplicate_rejected (qdp : List QdpRow) (st : SessionState)
    (q : QuestionRow) (user_response : List ℕ) :
    (st.results.any (fun r => r.question_id = q.id) = true →
      submit_cat_answer qdp st q user_response = Except.error duplicate_result_error) ∧
    (∀ (r : SubmitCatResult) (st' : SessionState),
      submit_cat_answer qdp st q user_response = Except.ok (r, st') →
        st'.session.current_ability = r.ability ∧
        ∀ resp₂ : List ℕ,
          submit_cat_answer qdp st' q resp₂ = Except.error duplicate_result_error) := by
  constructor
  · intro h
    unfold submit_cat_answer
    rw [if_pos h]
  · intro r st' h
    by_cases hc : st.results.any (fun t => t.question_id = q.id) = true
    · unfold submit_cat_answer at h
      rw [if_pos hc] at h
      exact absurd h (by simp)
    · unfold submit_cat_answer at h
      rw [if_neg hc] at h
      simp only [Except.ok.injEq, Prod.mk.injEq] at h
      obtain ⟨hr, hst⟩ := h
      subst hr
      subst hst
      refine ⟨rfl, ?_⟩
      intro resp₂
      unfold submit_cat_answer
      rw [if_pos (by simp)]

/-- Witness for C2 (amended): question 1 answered once from
`st_one_in_flight`; the follow-up state keeps the returned ability and
a second submission of question 1 is rejected. -/
theorem submit_cat_answer_duplicate_rejected_witness :
    st_after_q1.session.current_ability = result_after_q1.ability ∧
      submit_cat_answer [] st_after_q1 q_mc [10] = Except.error duplicate_result_error := by
  have h := (submit_cat_answer_duplicate_rejected [] st_one_in_flight q_mc [10]).2
    result_after_q1 st_after_q1 rfl
  exact ⟨h.1, h.2 [10]⟩

end CatEngine
